import Mathlib

/-!
Verification of the differentiable-provenance core of the scallop repository.

Part I embeds the scalar value type of src/core/src/common/value.rs.
Part II embeds the top-k differentiable provenance of
src/core/src/runtime/provenance/differentiable/diff_top_k_proofs.rs,
together with the DNF proof representation, semiring evaluators, disjunction
registry and pointer-family ownership model that this file relies on; those
supporting pieces are not part of the provided sources and are modelled from
the specification, as marked on each definition.

Machine floating-point values are embedded by the inductive Flt below: nan
stands for the f32 or f64 NaN constant, negZero for the negatively signed
zero, and num q for the finite value of rational magnitude q (num 0 being the
positively signed zero).  Distinct Flt values denote distinct bit patterns,
and the IEEE comparison and equality on them are given explicitly.  All the
concrete floating-point numbers appearing in the claims (0.7, 1.0, 0.5, NaN,
the zeros) are exactly representable, so no rounding is abstracted away.
Probabilities are carried as rationals.
-/

namespace Scallop

/-- Ordering of two elements of a linear order, as an Ordering value. -/
def ltCmp {α : Type} [LinearOrder α] (a b : α) : Ordering :=
  if a < b then Ordering.lt else if a = b then Ordering.eq else Ordering.gt

/-- Embedding of an f32 or f64 machine float: NaN, the negative zero, or a
finite number of rational value q (with num 0 the positive zero). -/
inductive Flt where
  | nan : Flt
  | negZero : Flt
  | num (q : ℚ) : Flt
deriving DecidableEq

/-- Numeric value denoted by a non-NaN float; the two zeros both denote 0. -/
def Flt.toQ : Flt → ℚ
  | .nan => 0
  | .negZero => 0
  | .num q => q

/-- IEEE partial comparison of two floats: undefined when either operand is
NaN, otherwise the numeric comparison (the two zeros compare equal). -/
def fcmp : Flt → Flt → Option Ordering
  | .nan, _ => none
  | _, .nan => none
  | a, b => some (ltCmp a.toQ b.toQ)

/-- IEEE equality of two floats: false when either operand is NaN, otherwise
numeric equality (so negZero equals num 0). -/
def feq (a b : Flt) : Bool :=
  fcmp a b = some Ordering.eq

/-- The Value enum of src/core/src/common/value.rs: a closed tagged union of
primitive scalars.  Signed integer payloads are carried as ℤ, unsigned ones
as ℕ, floats as Flt, and both string variants as String. -/
inductive Value where
  | I8 (i : ℤ)
  | I16 (i : ℤ)
  | I32 (i : ℤ)
  | I64 (i : ℤ)
  | I128 (i : ℤ)
  | ISize (i : ℤ)
  | U8 (u : ℕ)
  | U16 (u : ℕ)
  | U32 (u : ℕ)
  | U64 (u : ℕ)
  | U128 (u : ℕ)
  | USize (u : ℕ)
  | F32 (f : Flt)
  | F64 (f : Flt)
  | Char (c : Char)
  | Bool (b : Bool)
  | Str (s : String)
  | String (s : String)
deriving DecidableEq

/-- Discriminant index of a Value variant, in declaration order; the derived
PartialOrd of a Rust enum compares discriminants first. -/
def vidx : Value → ℕ
  | .I8 _ => 0
  | .I16 _ => 1
  | .I32 _ => 2
  | .I64 _ => 3
  | .I128 _ => 4
  | .ISize _ => 5
  | .U8 _ => 6
  | .U16 _ => 7
  | .U32 _ => 8
  | .U64 _ => 9
  | .U128 _ => 10
  | .USize _ => 11
  | .F32 _ => 12
  | .F64 _ => 13
  | .Char _ => 14
  | .Bool _ => 15
  | .Str _ => 16
  | .String _ => 17

/-- The derived PartialOrd comparison on Value (value.rs line 7): values of
different variants compare by discriminant order; values of the same variant
compare by the payload order, which for the float variants is the IEEE
partial comparison and is undefined on NaN. -/
def pcmp : Value → Value → Option Ordering
  | .I8 a, .I8 b => some (ltCmp a b)
  | .I16 a, .I16 b => some (ltCmp a b)
  | .I32 a, .I32 b => some (ltCmp a b)
  | .I64 a, .I64 b => some (ltCmp a b)
  | .I128 a, .I128 b => some (ltCmp a b)
  | .ISize a, .ISize b => some (ltCmp a b)
  | .U8 a, .U8 b => some (ltCmp a b)
  | .U16 a, .U16 b => some (ltCmp a b)
  | .U32 a, .U32 b => some (ltCmp a b)
  | .U64 a, .U64 b => some (ltCmp a b)
  | .U128 a, .U128 b => some (ltCmp a b)
  | .USize a, .USize b => some (ltCmp a b)
  | .F32 a, .F32 b => fcmp a b
  | .F64 a, .F64 b => fcmp a b
  | .Char a, .Char b => some (ltCmp a b)
  | .Bool a, .Bool b => some (ltCmp a b)
  | .Str a, .Str b => some (ltCmp a b)
  | .String a, .String b => some (ltCmp a b)
  | a, b => some (ltCmp (vidx a) (vidx b))

/-- The manual Ord impl on Value (value.rs lines 53 to 60): the derived
partial comparison, with an undefined comparison normalized to Equal. -/
def cmp (a b : Value) : Ordering :=
  match pcmp a b with
  | some o => o
  | none => Ordering.eq

/-- The derived PartialEq on Value (value.rs line 7): same variant and equal
payloads, where float payloads are compared by IEEE equality. -/
def veq : Value → Value → Bool
  | .I8 a, .I8 b => decide (a = b)
  | .I16 a, .I16 b => decide (a = b)
  | .I32 a, .I32 b => decide (a = b)
  | .I64 a, .I64 b => decide (a = b)
  | .I128 a, .I128 b => decide (a = b)
  | .ISize a, .ISize b => decide (a = b)
  | .U8 a, .U8 b => decide (a = b)
  | .U16 a, .U16 b => decide (a = b)
  | .U32 a, .U32 b => decide (a = b)
  | .U64 a, .U64 b => decide (a = b)
  | .U128 a, .U128 b => decide (a = b)
  | .USize a, .USize b => decide (a = b)
  | .F32 a, .F32 b => feq a b
  | .F64 a, .F64 b => feq a b
  | .Char a, .Char b => decide (a = b)
  | .Bool a, .Bool b => decide (a = b)
  | .Str a, .Str b => decide (a = b)
  | .String a, .String b => decide (a = b)
  | _, _ => false

/-- A token written to the hasher by one arm of the Hash impl of Value
(value.rs lines 62 to 85).  Integer variants write their integer payload;
the float variants write the raw bit pattern reinterpreted as a same-width
integer, which the embedding renders as the structural identity of the Flt
payload (distinct Flt values denote distinct bit patterns, and in particular
the two zeros have different bit patterns while being IEEE equal). -/
inductive HToken where
  | int (i : ℤ)
  | uint (u : ℕ)
  | bits32 (f : Flt)
  | bits64 (f : Flt)
  | ch (c : Char)
  | bool (b : Bool)
  | str (s : String)
deriving DecidableEq

/-- The Hash impl on Value (value.rs lines 62 to 85), as the stream of
tokens fed to the hasher; two values receive equal hashes exactly when their
token streams coincide. -/
def vhash : Value → List HToken
  | .I8 i => [.int i]
  | .I16 i => [.int i]
  | .I32 i => [.int i]
  | .I64 i => [.int i]
  | .I128 i => [.int i]
  | .ISize i => [.int i]
  | .U8 u => [.uint u]
  | .U16 u => [.uint u]
  | .U32 u => [.uint u]
  | .U64 u => [.uint u]
  | .U128 u => [.uint u]
  | .USize u => [.uint u]
  | .F32 f => [.bits32 f]
  | .F64 f => [.bits64 f]
  | .Char c => [.ch c]
  | .Bool b => [.bool b]
  | .Str s => [.str s]
  | .String s => [.str s]

/-- The conversion error of value.rs line 242. -/
inductive ValueConversionError where
  | mk : ValueConversionError
deriving DecidableEq

/-- TryInto of i8 for Value, generated by impl_try_into (value.rs line 244). -/
def try_into_i8 : Value → Except ValueConversionError ℤ
  | .I8 i => .ok i
  | _ => .error .mk

/-- TryInto of i16 for Value (value.rs line 245). -/
def try_into_i16 : Value → Except ValueConversionError ℤ
  | .I16 i => .ok i
  | _ => .error .mk

/-- TryInto of i32 for Value (value.rs line 246). -/
def try_into_i32 : Value → Except ValueConversionError ℤ
  | .I32 i => .ok i
  | _ => .error .mk

/-- TryInto of i64 for Value (value.rs line 247). -/
def try_into_i64 : Value → Except ValueConversionError ℤ
  | .I64 i => .ok i
  | _ => .error .mk

/-- TryInto of i128 for Value (value.rs line 248). -/
def try_into_i128 : Value → Except ValueConversionError ℤ
  | .I128 i => .ok i
  | _ => .error .mk

/-- TryInto of isize for Value (value.rs line 249). -/
def try_into_isize : Value → Except ValueConversionError ℤ
  | .ISize i => .ok i
  | _ => .error .mk

/-- TryInto of u8 for Value (value.rs line 250). -/
def try_into_u8 : Value → Except ValueConversionError ℕ
  | .U8 u => .ok u
  | _ => .error .mk

/-- TryInto of u16 for Value (value.rs line 251). -/
def try_into_u16 : Value → Except ValueConversionError ℕ
  | .U16 u => .ok u
  | _ => .error .mk

/-- TryInto of u32 for Value (value.rs line 252). -/
def try_into_u32 : Value → Except ValueConversionError ℕ
  | .U32 u => .ok u
  | _ => .error .mk

/-- TryInto of u64 for Value (value.rs line 253). -/
def try_into_u64 : Value → Except ValueConversionError ℕ
  | .U64 u => .ok u
  | _ => .error .mk

/-- TryInto of u128 for Value (value.rs line 254). -/
def try_into_u128 : Value → Except ValueConversionError ℕ
  | .U128 u => .ok u
  | _ => .error .mk

/-- TryInto of usize for Value (value.rs line 255). -/
def try_into_usize : Value → Except ValueConversionError ℕ
  | .USize u => .ok u
  | _ => .error .mk

/-- TryInto of f32 for Value (value.rs line 256). -/
def try_into_f32 : Value → Except ValueConversionError Flt
  | .F32 f => .ok f
  | _ => .error .mk

/-- TryInto of f64 for Value (value.rs line 257). -/
def try_into_f64 : Value → Except ValueConversionError Flt
  | .F64 f => .ok f
  | _ => .error .mk

/-- TryInto of bool for Value (value.rs line 258). -/
def try_into_bool : Value → Except ValueConversionError Bool
  | .Bool b => .ok b
  | _ => .error .mk

/-- TryInto of char for Value (value.rs line 259). -/
def try_into_char : Value → Except ValueConversionError Char
  | .Char c => .ok c
  | _ => .error .mk

/-- TryInto of String for Value (value.rs line 260); note that only the
String variant converts, the Str variant does not. -/
def try_into_string : Value → Except ValueConversionError String
  | .String s => .ok s
  | _ => .error .mk

/-! Part II: the top-k differentiable provenance. -/

variable {T : Type}

/-- Modelled from the spec: a literal of a DNF proof clause (section 3 and
section 4.2 describe clauses of positive fact-identifier literals; the
negate operation of section 4.5 builds formulas denoting complements, which
requires negative literals as well, so a literal carries a polarity). -/
inductive Literal where
  | pos (i : ℕ)
  | neg (i : ℕ)
deriving DecidableEq

/-- Modelled from the spec: negation of a single literal. -/
def Literal.flip : Literal → Literal
  | .pos i => .neg i
  | .neg i => .pos i

/-- Modelled from the spec (section 3): a clause, a finite set of literals
interpreted as their conjunction, represented as a duplicate-free list. -/
abbrev Clause := List Literal

/-- Modelled from the spec (section 3): a DNF formula, a finite set of
clauses interpreted as their disjunction, represented as a list. -/
abbrev DNFFormula := List Clause

/-- Modelled from the spec (section 3): the empty formula, logical false. -/
def DNFFormula.base_zero : DNFFormula := []

/-- Modelled from the spec (section 3): the formula with one empty clause,
logical true. -/
def DNFFormula.base_one : DNFFormula := [[]]

/-- Modelled from the spec (section 3): the minimal singleton tag of a
freshly minted fact, one clause holding one positive literal. -/
def DNFFormula.singleton (i : ℕ) : DNFFormula := [[Literal.pos i]]

/-- Modelled from the spec (section 3): the disjunction registry, recording
which fact identifier was registered into which mutual-exclusivity group,
as a list of (group identifier, fact identifier) pairs. -/
abbrev Disjunctions := List (ℕ × ℕ)

/-- Modelled from the spec (section 4.2): registering a fact identifier into
a disjunction group. -/
def add_disjunction (dj : Disjunctions) (disjunction_id fact_id : ℕ) : Disjunctions :=
  dj ++ [(disjunction_id, fact_id)]

/-- Modelled from the spec (section 4.2): whether a candidate set of
positively asserted fact identifiers contains two or more members of the
same disjunction group. -/
def has_conflict (dj : Disjunctions) (pos_facts : List ℕ) : Bool :=
  dj.any fun p =>
    pos_facts.contains p.2 &&
      dj.any fun q => q.1 == p.1 && !(q.2 == p.2) && pos_facts.contains q.2

/-- Modelled from the spec (section 2, ownership strategy): the store behind
the pointer family.  A pointer is an index into an unbounded family of
cells, each holding one fact table; allocating returns a fresh index.  The
fact table of a provenance context lives behind such a pointer, so that the
clone operation of the context can be stated as a real deep copy rather
than one holding trivially of every pure value. -/
structure Heap (T : Type) where
  next : ℕ
  cells : ℕ → List (ℚ × T)

/-- Modelled from the spec: the empty store. -/
def Heap.empty (T : Type) : Heap T := ⟨0, fun _ => []⟩

/-- Modelled from the spec: dereferencing a pointer. -/
def Heap.read (h : Heap T) (p : ℕ) : List (ℚ × T) := h.cells p

/-- Modelled from the spec: mutation through a pointer, the accessor
P::get_mut of the ownership strategy. -/
def Heap.write (h : Heap T) (p : ℕ) (v : List (ℚ × T)) : Heap T :=
  ⟨h.next, fun i => if i = p then v else h.cells i⟩

/-- Modelled from the spec: P::new, allocation of a fresh cell holding the
given fact table. -/
def Heap.alloc (h : Heap T) (v : List (ℚ × T)) : Heap T × ℕ :=
  (⟨h.next + 1, fun i => if i = h.next then v else h.cells i⟩, h.next)

/-- Modelled from the spec (section 3, input tag): probability, opaque
label, optional disjunction group identifier. -/
structure InputExclusiveDiffProb (T : Type) where
  prob : ℚ
  tag : T
  exclusion : Option ℕ

/-- The output tag OutputDiffProb of diff_top_k_proofs.rs: the recovered
probability together with the list of (fact identifier, partial derivative,
input label) entries. -/
structure OutputDiffProb (T : Type) where
  prob : ℚ
  deriv : List (ℕ × ℚ × T)
deriving DecidableEq

/-- The provenance context DiffTopKProofsProvenance (diff_top_k_proofs.rs
lines 8 to 12): the bound k, the pointer to the fact table, and the
disjunction registry. -/
structure DiffTopKProofsProvenance where
  k : ℕ
  diff_probs : ℕ
  disjunctions : Disjunctions
deriving DecidableEq

/-- DiffTopKProofsProvenance::new (diff_top_k_proofs.rs lines 25 to 31):
a fresh context with the given k, an empty fact table behind a fresh
pointer, and an empty disjunction registry. -/
def DiffTopKProofsProvenance.new (h : Heap T) (k : ℕ) :
    Heap T × DiffTopKProofsProvenance :=
  let a := h.alloc []
  (a.1, ⟨k, a.2, []⟩)

/-- The Clone impl (diff_top_k_proofs.rs lines 14 to 22): same k, the fact
table copied into a freshly allocated cell, the disjunction registry
copied. -/
def clone (h : Heap T) (c : DiffTopKProofsProvenance) :
    Heap T × DiffTopKProofsProvenance :=
  let a := h.alloc (h.read c.diff_probs)
  (a.1, { c with diff_probs := a.2 })

/-- fact_probability of the DNFContextTrait impl (diff_top_k_proofs.rs
lines 43 to 45): the stored probability of a fact identifier. -/
def fact_probability (h : Heap T) (c : DiffTopKProofsProvenance) (id : ℕ) : ℚ :=
  ((h.read c.diff_probs).map Prod.fst).getD id 0

/-- Modelled from the spec (section 4.3): the weight of one literal under
the plain evaluator, the probability of the fact for a positive literal and
its complement for a negative one. -/
def litProb (h : Heap T) (c : DiffTopKProofsProvenance) : Literal → ℚ
  | .pos i => fact_probability h c i
  | .neg i => 1 - fact_probability h c i

/-- Modelled from the spec (section 4.2): the positively asserted fact
identifiers of a clause. -/
def Clause.pos_facts (cl : Clause) : List ℕ :=
  cl.filterMap fun l => match l with | .pos i => some i | .neg _ => none

/-- Modelled from the spec (section 4.3): the plain evaluator on one
clause, the product of its literal weights, with a clause holding a
disjunction conflict evaluating to zero regardless of its literals. -/
def clause_weight (h : Heap T) (c : DiffTopKProofsProvenance) (cl : Clause) : ℚ :=
  if has_conflict c.disjunctions cl.pos_facts then 0
  else cl.foldl (fun a l => a * litProb h c l) 1

/-- Modelled from the spec (section 4.3): the plain evaluator on a formula,
semiring addition across the clause weights. -/
def real_wmc (h : Heap T) (c : DiffTopKProofsProvenance) (t : DNFFormula) : ℚ :=
  t.foldl (fun a cl => a + clause_weight h c cl) 0

/-- Modelled from the spec (section 4.5, top-k pruning): insertion of a
clause into a list sorted by decreasing estimated weight. -/
def insertByWeight (w : Clause → ℚ) (cl : Clause) : List Clause → List Clause
  | [] => [cl]
  | d :: ds => if w d < w cl then cl :: d :: ds else d :: insertByWeight w cl ds

/-- Modelled from the spec (section 4.5): the clauses ordered by decreasing
estimated weight. -/
def sortByWeight (w : Clause → ℚ) (l : List Clause) : List Clause :=
  l.foldr (insertByWeight w) []

/-- Modelled from the spec (section 4.5): retain only the k clauses of
greatest estimated weight, discarding the remainder. -/
def retain_top_k (w : Clause → ℚ) (k : ℕ) (l : List Clause) : List Clause :=
  (sortByWeight w l).take k

/-- Modelled from the spec (section 4.5): top-k disjunction, the union of
the two clause sets capped to the k clauses of greatest estimated weight. -/
def top_k_add (h : Heap T) (c : DiffTopKProofsProvenance)
    (t1 t2 : DNFFormula) (k : ℕ) : DNFFormula :=
  retain_top_k (clause_weight h c) k (t1.union t2)

/-- Modelled from the spec (section 4.5): top-k conjunction, the pairwise
clause-union cross product of the two operands capped to the k clauses of
greatest estimated weight. -/
def top_k_mult (h : Heap T) (c : DiffTopKProofsProvenance)
    (t1 t2 : DNFFormula) (k : ℕ) : DNFFormula :=
  retain_top_k (clause_weight h c) k
    ((t1.flatMap fun c1 => t2.map fun c2 => c1.union c2).dedup)

/-- Modelled from the spec (section 4.5): the complement of one clause, one
singleton clause per flipped literal. -/
def negate_clause (cl : Clause) : DNFFormula := cl.map fun l => [l.flip]

/-- Modelled from the spec (section 4.5): top-k complement of a formula,
the conjunction of the clause complements, each step top-k-bounded. -/
def top_k_negate (h : Heap T) (c : DiffTopKProofsProvenance)
    (t : DNFFormula) (k : ℕ) : DNFFormula :=
  t.foldl (fun acc cl => top_k_mult h c acc (negate_clause cl) k) DNFFormula.base_one

/-- zero of the Provenance impl (diff_top_k_proofs.rs lines 99 to 101). -/
def zero (_ : DiffTopKProofsProvenance) : DNFFormula := DNFFormula.base_zero

/-- one of the Provenance impl (diff_top_k_proofs.rs lines 103 to 105). -/
def one (_ : DiffTopKProofsProvenance) : DNFFormula := DNFFormula.base_one

/-- add of the Provenance impl (diff_top_k_proofs.rs lines 107 to 109). -/
def add (h : Heap T) (c : DiffTopKProofsProvenance) (t1 t2 : DNFFormula) : DNFFormula :=
  top_k_add h c t1 t2 c.k

/-- mult of the Provenance impl (diff_top_k_proofs.rs lines 115 to 117). -/
def mult (h : Heap T) (c : DiffTopKProofsProvenance) (t1 t2 : DNFFormula) : DNFFormula :=
  top_k_mult h c t1 t2 c.k

/-- negate of the Provenance impl (diff_top_k_proofs.rs lines 119 to 121):
always present for this concrete provenance. -/
def negate (h : Heap T) (c : DiffTopKProofsProvenance) (t : DNFFormula) :
    Option DNFFormula :=
  some (top_k_negate h c t c.k)

/-- The unwrap applied to negate at its call sites inside the aggregate
combinators; negate always returns a present value here. -/
def negOf (h : Heap T) (c : DiffTopKProofsProvenance) (t : DNFFormula) : DNFFormula :=
  (negate h c t).getD DNFFormula.base_zero

/-- discard of the Provenance impl (diff_top_k_proofs.rs lines 95 to 97). -/
def discard (_ : DiffTopKProofsProvenance) (t : DNFFormula) : Bool := t.isEmpty

/-- saturated of the Provenance impl (diff_top_k_proofs.rs lines 111 to
113): syntactic formula equality. -/
def saturated (_ : DiffTopKProofsProvenance) (t_old t_new : DNFFormula) : Bool :=
  decide (t_old = t_new)

/-- weight of the Provenance impl (diff_top_k_proofs.rs lines 123 to 126). -/
def weight (h : Heap T) (c : DiffTopKProofsProvenance) (t : DNFFormula) : ℚ :=
  real_wmc h c t

/-- tagging_fn of the Provenance impl (diff_top_k_proofs.rs lines 63 to
77): mint the next fact identifier, append (probability, label) to the
fact table through the pointer, register the declared exclusivity if any,
and return the singleton tag. -/
def tagging_fn (h : Heap T) (c : DiffTopKProofsProvenance)
    (input_tag : InputExclusiveDiffProb T) :
    Heap T × DiffTopKProofsProvenance × DNFFormula :=
  let table := h.read c.diff_probs
  let fact_id := table.length
  let h1 := h.write c.diff_probs (table ++ [(input_tag.prob, input_tag.tag)])
  let c1 :=
    match input_tag.exclusion with
    | some disjunction_id =>
        { c with disjunctions := add_disjunction c.disjunctions disjunction_id fact_id }
    | none => c
  (h1, c1, DNFFormula.singleton fact_id)

/-- Modelled from the spec (section 4.3): a dual number, a probability
paired with a sparse derivative vector indexed by fact identifier. -/
structure DualNumber where
  real : ℚ
  deriv : List (ℕ × ℚ)
deriving DecidableEq

/-- Modelled from the spec: adding one entry into a sparse derivative
vector, merging with an existing entry of the same fact identifier. -/
def addEntry : List (ℕ × ℚ) → ℕ × ℚ → List (ℕ × ℚ)
  | [], e => [e]
  | d :: ds, e => if d.1 = e.1 then (d.1, d.2 + e.2) :: ds else d :: addEntry ds e

/-- Modelled from the spec: the sum of two sparse derivative vectors. -/
def mergeDeriv (d1 d2 : List (ℕ × ℚ)) : List (ℕ × ℚ) := d2.foldl addEntry d1

/-- Modelled from the spec (section 4.3): the zero of the dual number
semiring. -/
def DualNumber.zero : DualNumber := ⟨0, []⟩

/-- Modelled from the spec (section 4.3): the one of the dual number
semiring. -/
def DualNumber.one : DualNumber := ⟨1, []⟩

/-- Modelled from the spec (section 4.3): dual number addition, the
derivative of a sum being the sum of the derivatives. -/
def DualNumber.add (a b : DualNumber) : DualNumber :=
  ⟨a.real + b.real, mergeDeriv a.deriv b.deriv⟩

/-- Modelled from the spec (section 4.3): dual number multiplication,
following the product rule. -/
def DualNumber.mul (a b : DualNumber) : DualNumber :=
  ⟨a.real * b.real,
   mergeDeriv (a.deriv.map fun e => (e.1, e.2 * b.real))
     (b.deriv.map fun e => (e.1, e.2 * a.real))⟩

/-- Modelled from the spec (section 4.3): the complement of a dual number,
used for negative literals. -/
def DualNumber.oneMinus (a : DualNumber) : DualNumber :=
  ⟨1 - a.real, a.deriv.map fun e => (e.1, -e.2)⟩

/-- DualNumberSemiring singleton as used by recover_fn (diff_top_k_proofs.rs
lines 81 to 84): the probability of the fact with a unit derivative for its
own identifier. -/
def DualNumber.singleton (p : ℚ) (i : ℕ) : DualNumber := ⟨p, [(i, 1)]⟩

/-- Modelled from the spec (section 4.3): the differentiating evaluator on
one literal. -/
def dual_lit (h : Heap T) (c : DiffTopKProofsProvenance) : Literal → DualNumber
  | .pos i => DualNumber.singleton (fact_probability h c i) i
  | .neg i => (DualNumber.singleton (fact_probability h c i) i).oneMinus

/-- Modelled from the spec (section 4.3): the differentiating evaluator on
one clause, semiring multiplication across its literals, with a clause
holding a disjunction conflict evaluating to the semiring zero. -/
def dual_clause (h : Heap T) (c : DiffTopKProofsProvenance) (cl : Clause) : DualNumber :=
  if has_conflict c.disjunctions cl.pos_facts then DualNumber.zero
  else cl.foldl (fun a l => a.mul (dual_lit h c l)) DualNumber.one

/-- Modelled from the spec (section 4.3): the differentiating evaluator on
a formula, semiring addition across its clauses. -/
def dual_wmc (h : Heap T) (c : DiffTopKProofsProvenance) (t : DNFFormula) : DualNumber :=
  t.foldl (fun a cl => a.add (dual_clause h c cl)) DualNumber.zero

/-- recover_fn of the Provenance impl (diff_top_k_proofs.rs lines 79 to
93): run the differentiating evaluator over the tag and pair every
derivative entry with the stored label of its fact. -/
def recover_fn [Inhabited T] (h : Heap T) (c : DiffTopKProofsProvenance)
    (t : DNFFormula) : OutputDiffProb T :=
  let wmc_result := dual_wmc h c t
  ⟨wmc_result.real,
   wmc_result.deriv.map fun e =>
     (e.1, e.2, ((h.read c.diff_probs).map Prod.snd).getD e.1 default)⟩

/-- The dynamically typed tuple carried by DynamicElement: a scalar value
or a nested sequence of tuples. -/
inductive Tuple where
  | value (v : Value)
  | tuple (ts : List Tuple)

/-- The combinations of the given size from a list, in the order produced
by the powerset iterator of the source. -/
def combinations : ℕ → List ℕ → List (List ℕ)
  | 0, _ => [[]]
  | _ + 1, [] => []
  | j + 1, x :: xs => (combinations j xs).map (fun s => x :: s) ++ combinations (j + 1) xs

/-- The powerset iterator over a list of indices, enumerating subsets by
increasing size as the itertools powerset of the source does. -/
def powersetList (l : List ℕ) : List (List ℕ) :=
  (List.range (l.length + 1)).flatMap fun s => combinations s l

/-- Modelled from the spec (section 4.6, count): the tag asserting that
exactly the chosen subset of the batch holds, the top-k-bounded conjunction
of the chosen tags with the negations of the unchosen tags. -/
def top_k_tag_of_chosen_set (h : Heap T) (c : DiffTopKProofsProvenance)
    (tags : List DNFFormula) (chosen_set : List ℕ) (k : ℕ) : DNFFormula :=
  (List.range tags.length).foldl
    (fun acc i =>
      if chosen_set.contains i then
        top_k_mult h c acc (tags.getD i DNFFormula.base_zero) k
      else
        top_k_mult h c acc (top_k_negate h c (tags.getD i DNFFormula.base_zero) k) k)
    DNFFormula.base_one

/-- dynamic_count of the Provenance impl (diff_top_k_proofs.rs lines 128 to
140). -/
def dynamic_count (h : Heap T) (c : DiffTopKProofsProvenance)
    (batch : List (Tuple × DNFFormula)) : List (Tuple × DNFFormula) :=
  if batch.isEmpty then [(Tuple.value (Value.USize 0), one c)]
  else
    (powersetList (List.range batch.length)).map fun chosen_set =>
      (Tuple.value (Value.USize chosen_set.length),
       top_k_tag_of_chosen_set h c (batch.map Prod.snd) chosen_set c.k)

/-- dynamic_min of the Provenance impl (diff_top_k_proofs.rs lines 142 to
154): element i keeps its tuple, tagged with the conjunction of the
negations of every earlier tag followed by its own tag. -/
def dynamic_min (h : Heap T) (c : DiffTopKProofsProvenance)
    (batch : List (Tuple × DNFFormula)) : List (Tuple × DNFFormula) :=
  (List.range batch.length).map fun i =>
    let e := batch.getD i (Tuple.tuple [], DNFFormula.base_zero)
    (e.1,
     mult h c
       ((batch.take i).foldl (fun acc p => mult h c acc (negOf h c p.2)) (one c))
       e.2)

/-- dynamic_max of the Provenance impl (diff_top_k_proofs.rs lines 156 to
167): element i keeps its tuple, tagged with its own tag conjoined with the
negations of every later tag. -/
def dynamic_max (h : Heap T) (c : DiffTopKProofsProvenance)
    (batch : List (Tuple × DNFFormula)) : List (Tuple × DNFFormula) :=
  (List.range batch.length).map fun i =>
    let e := batch.getD i (Tuple.tuple [], DNFFormula.base_zero)
    (e.1,
     (batch.drop (i + 1)).foldl (fun acc p => mult h c acc (negOf h c p.2)) e.2)

/-- dynamic_exists of the Provenance impl (diff_top_k_proofs.rs lines 169
to 179): fold add over the tags from zero and mult over the negated tags
from one, returning the true and false results. -/
def dynamic_exists (h : Heap T) (c : DiffTopKProofsProvenance)
    (batch : List (Tuple × DNFFormula)) : List (Tuple × DNFFormula) :=
  let p := batch.foldl
    (fun (acc : DNFFormula × DNFFormula) elem =>
      (add h c acc.1 elem.2, mult h c acc.2 (negOf h c elem.2)))
    (zero c, one c)
  [(Tuple.value (Value.Bool true), p.1), (Tuple.value (Value.Bool false), p.2)]

/-- static_count of the Provenance impl (diff_top_k_proofs.rs lines 181 to
193). -/
def static_count {Tup : Type} (h : Heap T) (c : DiffTopKProofsProvenance)
    (batch : List (Tup × DNFFormula)) : List (ℕ × DNFFormula) :=
  if batch.isEmpty then [(0, one c)]
  else
    (powersetList (List.range batch.length)).map fun chosen_set =>
      (chosen_set.length,
       top_k_tag_of_chosen_set h c (batch.map Prod.snd) chosen_set c.k)

/-- static_min of the Provenance impl (diff_top_k_proofs.rs lines 195 to
207). -/
def static_min {Tup : Type} [Inhabited Tup] (h : Heap T)
    (c : DiffTopKProofsProvenance) (batch : List (Tup × DNFFormula)) :
    List (Tup × DNFFormula) :=
  (List.range batch.length).map fun i =>
    let e := batch.getD i (default, DNFFormula.base_zero)
    (e.1,
     mult h c
       ((batch.take i).foldl (fun acc p => mult h c acc (negOf h c p.2)) (one c))
       e.2)

/-- static_max of the Provenance impl (diff_top_k_proofs.rs lines 209 to
220). -/
def static_max {Tup : Type} [Inhabited Tup] (h : Heap T)
    (c : DiffTopKProofsProvenance) (batch : List (Tup × DNFFormula)) :
    List (Tup × DNFFormula) :=
  (List.range batch.length).map fun i =>
    let e := batch.getD i (default, DNFFormula.base_zero)
    (e.1,
     (batch.drop (i + 1)).foldl (fun acc p => mult h c acc (negOf h c p.2)) e.2)

/-- static_exists of the Provenance impl (diff_top_k_proofs.rs lines 222 to
232). -/
def static_exists {Tup : Type} (h : Heap T) (c : DiffTopKProofsProvenance)
    (batch : List (Tup × DNFFormula)) : List (Bool × DNFFormula) :=
  let p := batch.foldl
    (fun (acc : DNFFormula × DNFFormula) elem =>
      (add h c acc.1 elem.2, mult h c acc.2 (negOf h c elem.2)))
    (zero c, one c)
  [(true, p.1), (false, p.2)]

/-- Repeated tagging: feed a list of input tags to tagging_fn in order,
threading the store and the context, collecting the returned tags. -/
def tagMany (h : Heap T) (c : DiffTopKProofsProvenance) :
    List (InputExclusiveDiffProb T) →
      Heap T × DiffTopKProofsProvenance × List DNFFormula
  | [] => (h, c, [])
  | inp :: rest =>
    let r1 := tagging_fn h c inp
    let r2 := tagMany r1.1 r1.2.1 rest
    (r2.1, r2.2.1, r1.2.2 :: r2.2.2)

/-! Helper lemmas about the store and tagging. -/

lemma Heap.read_write_self (h : Heap T) (p : ℕ) (v : List (ℚ × T)) :
    (h.write p v).read p = v := by
  simp [Heap.read, Heap.write]

lemma Heap.read_write_ne (h : Heap T) (p q : ℕ) (v : List (ℚ × T)) (hpq : q ≠ p) :
    (h.write p v).read q = h.read q := by
  simp [Heap.read, Heap.write, hpq]

lemma Heap.read_alloc_self (h : Heap T) (v : List (ℚ × T)) :
    (h.alloc v).1.read (h.alloc v).2 = v := by
  simp [Heap.read, Heap.alloc]

lemma Heap.read_alloc_ne (h : Heap T) (v : List (ℚ × T)) (q : ℕ) (hq : q ≠ h.next) :
    (h.alloc v).1.read q = h.read q := by
  simp [Heap.read, Heap.alloc, hq]

lemma tagging_table (h : Heap T) (c : DiffTopKProofsProvenance)
    (inp : InputExclusiveDiffProb T) :
    (tagging_fn h c inp).1.read c.diff_probs =
      h.read c.diff_probs ++ [(inp.prob, inp.tag)] := by
  simp [tagging_fn, Heap.read_write_self]

lemma tagging_read_ne (h : Heap T) (c : DiffTopKProofsProvenance)
    (inp : InputExclusiveDiffProb T) (q : ℕ) (hq : q ≠ c.diff_probs) :
    (tagging_fn h c inp).1.read q = h.read q := by
  simp [tagging_fn, Heap.read_write_ne _ _ _ _ hq]

lemma tagging_ptr (h : Heap T) (c : DiffTopKProofsProvenance)
    (inp : InputExclusiveDiffProb T) :
    (tagging_fn h c inp).2.1.diff_probs = c.diff_probs := by
  cases hx : inp.exclusion <;> simp [tagging_fn, hx]

lemma tagging_tag (h : Heap T) (c : DiffTopKProofsProvenance)
    (inp : InputExclusiveDiffProb T) :
    (tagging_fn h c inp).2.2 = DNFFormula.singleton (h.read c.diff_probs).length := by
  cases hx : inp.exclusion <;> simp [tagging_fn, hx]

lemma has_conflict_singleton (dj : Disjunctions) (i : ℕ) :
    has_conflict dj [i] = false := by
  simp only [has_conflict]
  rw [List.any_eq_false]
  intro p _
  simp only [Bool.and_eq_true, not_and, List.any_eq_true]
  intro hpi hex
  obtain ⟨q, _, hg⟩ := hex
  have hq2 : q.2 ≠ p.2 := by simpa using hg.1.2
  have hqi : q.2 = i := by simpa [List.contains] using hg.2
  have hpi2 : p.2 = i := by simpa [List.contains] using hpi
  exact hq2 (hqi.trans hpi2.symm)

lemma getD_map_append {α β γ : Type} (l : List (α × β)) (x : α × β)
    (f : α × β → γ) (d : γ) :
    ((l ++ [x]).map f).getD l.length d = f x := by
  induction l with
  | nil => rfl
  | cons y ys _ => simp

lemma getD_map_snd {α β : Type} (b : List (α × β)) (i : ℕ) (a0 : α) (d2 : β)
    (hi : i < b.length) :
    (b.map Prod.snd).getD i d2 = (b.getD i (a0, d2)).2 := by
  induction b generalizing i with
  | nil => simp at hi
  | cons x xs ih =>
    cases i with
    | zero => simp
    | succ n =>
      have hn : n < xs.length := by simpa using hi
      simpa using ih n hn

lemma recover_singleton [Inhabited T] (h : Heap T) (c : DiffTopKProofsProvenance)
    (i : ℕ) (p : ℚ) (lab : T)
    (hp : ((h.read c.diff_probs).map Prod.fst).getD i 0 = p)
    (hl : ((h.read c.diff_probs).map Prod.snd).getD i default = lab) :
    recover_fn h c (DNFFormula.singleton i) = ⟨p, [(i, 1, lab)]⟩ := by
  simp only [List.getD_eq_getElem?_getD, List.getElem?_map] at hp hl
  simp [recover_fn, dual_wmc, dual_clause, dual_lit, DNFFormula.singleton,
    Clause.pos_facts, has_conflict_singleton, DualNumber.zero, DualNumber.one,
    DualNumber.add, DualNumber.mul, DualNumber.singleton, mergeDeriv, addEntry,
    fact_probability, hp, hl]

lemma tagMany_spec (inputs : List (InputExclusiveDiffProb T)) :
    ∀ (h : Heap T) (c : DiffTopKProofsProvenance),
      (tagMany h c inputs).2.2 =
        (List.range inputs.length).map
          (fun i => DNFFormula.singleton ((h.read c.diff_probs).length + i)) ∧
      (tagMany h c inputs).1.read c.diff_probs =
        h.read c.diff_probs ++ inputs.map (fun inp => (inp.prob, inp.tag)) ∧
      (tagMany h c inputs).2.1.diff_probs = c.diff_probs := by
  induction inputs with
  | nil => intro h c; simp [tagMany]
  | cons inp rest ih =>
    intro h c
    obtain ⟨iht, ihr, ihp⟩ := ih (tagging_fn h c inp).1 (tagging_fn h c inp).2.1
    rw [tagging_ptr] at iht ihr ihp
    rw [tagging_table] at iht ihr
    refine ⟨?_, ?_, ?_⟩
    · show (tagging_fn h c inp).2.2 ::
          (tagMany (tagging_fn h c inp).1 (tagging_fn h c inp).2.1 rest).2.2 = _
      rw [tagging_tag, iht]
      rw [List.length_cons, List.range_succ_eq_map, List.map_cons, List.map_map]
      refine congrArg₂ _ (by simp) ?_
      refine List.map_congr_left fun i _ => ?_
      simp only [Function.comp_apply, List.length_append, List.length_cons,
        List.length_nil]
      congr 1
      omega
    · show (tagMany (tagging_fn h c inp).1 (tagging_fn h c inp).2.1 rest).1.read
          c.diff_probs = _
      rw [ihr]
      simp
    · show (tagMany (tagging_fn h c inp).1 (tagging_fn h c inp).2.1 rest).2.1.diff_probs = _
      exact ihp

/-! Helper lemmas about the scalar value model. -/

lemma ltCmp_eq_iff {α : Type} [LinearOrder α] (a b : α) :
    ltCmp a b = Ordering.eq ↔ a = b := by
  unfold ltCmp
  split_ifs with h1 h2
  · simp [ne_of_lt h1]
  · simp [h2]
  · simp [h2]

lemma fcmp_eq_none_iff (a b : Flt) :
    fcmp a b = none ↔ a = Flt.nan ∨ b = Flt.nan := by
  cases a <;> cases b <;> simp [fcmp]

lemma feq_iff (a b : Flt) :
    feq a b = true ↔ a ≠ Flt.nan ∧ b ≠ Flt.nan ∧ a.toQ = b.toQ := by
  cases a <;> cases b <;> simp [feq, fcmp, Flt.toQ, ltCmp_eq_iff]

lemma float_hash_cases (a b : Flt) (h1 : a ≠ Flt.nan) (h2 : b ≠ Flt.nan)
    (h3 : a.toQ = b.toQ) :
    a = b ∨ (a = Flt.negZero ∧ b = Flt.num 0) ∨ (a = Flt.num 0 ∧ b = Flt.negZero) := by
  rcases a with _ | _ | qa <;> rcases b with _ | _ | qb <;> simp_all [Flt.toQ]

/-- The shape of a pair of Values on which the derived partial comparison
is undefined: both are float variants of the same width and at least one
payload is NaN. -/
def nan_pcmp_shape (v1 v2 : Value) : Prop :=
  (∃ a b, v1 = Value.F32 a ∧ v2 = Value.F32 b ∧ (a = Flt.nan ∨ b = Flt.nan)) ∨
  (∃ a b, v1 = Value.F64 a ∧ v2 = Value.F64 b ∧ (a = Flt.nan ∨ b = Flt.nan))

/-- A pair of same-width float Values whose payloads are the two opposite
signed zeros. -/
def opposite_zero_pair (v1 v2 : Value) : Prop :=
  (v1 = Value.F32 Flt.negZero ∧ v2 = Value.F32 (Flt.num 0)) ∨
  (v1 = Value.F32 (Flt.num 0) ∧ v2 = Value.F32 Flt.negZero) ∨
  (v1 = Value.F64 Flt.negZero ∧ v2 = Value.F64 (Flt.num 0)) ∨
  (v1 = Value.F64 (Flt.num 0) ∧ v2 = Value.F64 Flt.negZero)

/-! Claims C7 to C10, about the scalar Value type. -/

/-- C7, counterexample: the claim asserts that the comparison obtained from
the None-to-Equal fallback is a total order, in particular transitive and
antisymmetric, and that incompatible variants are among the undefined
comparisons.  All three parts fail on the code: cmp identifies 1.0f32 with
NaN and NaN with 2.0f32 while ordering 1.0f32 strictly below 2.0f32
(transitivity fails), cmp equates NaN with 1.0f32 in both directions though
the two values differ (antisymmetry fails), and the derived partial
comparison of two incompatible variants is defined, by variant order. -/
theorem c7_cmp_not_total_order_cex :
    cmp (Value.F32 (Flt.num 1)) (Value.F32 Flt.nan) = Ordering.eq ∧
    cmp (Value.F32 Flt.nan) (Value.F32 (Flt.num 2)) = Ordering.eq ∧
    cmp (Value.F32 (Flt.num 1)) (Value.F32 (Flt.num 2)) = Ordering.lt ∧
    cmp (Value.F32 Flt.nan) (Value.F32 (Flt.num 1)) = Ordering.eq ∧
    Value.F32 Flt.nan ≠ Value.F32 (Flt.num 1) ∧
    pcmp (Value.I8 0) (Value.I16 0) = some Ordering.lt := by decide

/-- C7, amended: whenever the derived partial comparison of two Values is
undefined, Ord::cmp returns Equal; such undefined comparisons arise only
between float variants of the same width with a NaN operand, never between
incompatible variants, and the resulting total comparison is not a total
order (it is neither transitive nor antisymmetric, per the
counterexample). -/
theorem c7_cmp_fallback_amended :
    ∀ v1 v2 : Value, pcmp v1 v2 = none →
      cmp v1 v2 = Ordering.eq ∧ nan_pcmp_shape v1 v2 := by
  intro v1 v2 h
  refine ⟨by simp [cmp, h], ?_⟩
  cases v1 <;> cases v2 <;> simp_all [pcmp, nan_pcmp_shape, fcmp_eq_none_iff]

/-- C7, witness: the amended theorem applied to the pair of an f32 NaN and
an f32 zero, whose partial comparison is undefined. -/
theorem c7_cmp_fallback_witness :
    pcmp (Value.F32 Flt.nan) (Value.F32 (Flt.num 0)) = none ∧
    (cmp (Value.F32 Flt.nan) (Value.F32 (Flt.num 0)) = Ordering.eq ∧
     nan_pcmp_shape (Value.F32 Flt.nan) (Value.F32 (Flt.num 0))) :=
  ⟨by decide, c7_cmp_fallback_amended _ _ (by decide)⟩

/-- C8, counterexample: hashing is not consistent with the derived
equality on all pairs.  The two signed f32 zeros are equal under the
derived (IEEE) equality, but their bit patterns differ, so the bit-pattern
reinterpretation hashes them differently. -/
theorem c8_hash_eq_inconsistent_cex :
    veq (Value.F32 Flt.negZero) (Value.F32 (Flt.num 0)) = true ∧
    vhash (Value.F32 Flt.negZero) ≠ vhash (Value.F32 (Flt.num 0)) := by decide

/-- C8, amended: the float variants hash by the raw bit pattern
reinterpreted as a same-width integer, and for every pair of equal Values
the hashes agree, with the single exception of a pair of same-width float
values carrying the two opposite signed zeros. -/
theorem c8_hash_consistency_amended :
    (∀ f, vhash (Value.F32 f) = [HToken.bits32 f]) ∧
    (∀ f, vhash (Value.F64 f) = [HToken.bits64 f]) ∧
    (∀ v1 v2 : Value, veq v1 v2 = true →
      vhash v1 = vhash v2 ∨ opposite_zero_pair v1 v2) := by
  refine ⟨fun f => rfl, fun f => rfl, ?_⟩
  intro v1 v2 h
  cases v1 <;> cases v2 <;> simp_all [veq, feq_iff]
  · rename_i a b
    obtain ⟨h1, h2, h3⟩ := h
    rcases float_hash_cases a b h1 h2 h3 with rfl | ⟨rfl, rfl⟩ | ⟨rfl, rfl⟩
    · exact Or.inl rfl
    · exact Or.inr (Or.inl ⟨rfl, rfl⟩)
    · exact Or.inr (Or.inr (Or.inl ⟨rfl, rfl⟩))
  · rename_i a b
    obtain ⟨h1, h2, h3⟩ := h
    rcases float_hash_cases a b h1 h2 h3 with rfl | ⟨rfl, rfl⟩ | ⟨rfl, rfl⟩
    · exact Or.inl rfl
    · exact Or.inr (Or.inr (Or.inr (Or.inl ⟨rfl, rfl⟩)))
    · exact Or.inr (Or.inr (Or.inr (Or.inr ⟨rfl, rfl⟩)))

/-- C8, witness: the amended theorem applied to two equal f32 values. -/
theorem c8_hash_consistency_witness :
    veq (Value.F32 (Flt.num 5)) (Value.F32 (Flt.num 5)) = true ∧
    (vhash (Value.F32 (Flt.num 5)) = vhash (Value.F32 (Flt.num 5)) ∨
     opposite_zero_pair (Value.F32 (Flt.num 5)) (Value.F32 (Flt.num 5))) :=
  ⟨by decide, c8_hash_consistency_amended.2.2 _ _ (by decide)⟩

/-- C9: for each of the seventeen generated TryInto conversions, the
conversion succeeds and returns the contained primitive exactly when the
runtime variant matches the target type, and otherwise fails with the
conversion error; every conversion is a total function, so no conversion
panics. -/
theorem c9_try_into_exact :
    (∀ v : Value, (∀ i, try_into_i8 v = .ok i ↔ v = .I8 i) ∧
      (try_into_i8 v = .error .mk ∨ ∃ i, v = .I8 i)) ∧
    (∀ v : Value, (∀ i, try_into_i16 v = .ok i ↔ v = .I16 i) ∧
      (try_into_i16 v = .error .mk ∨ ∃ i, v = .I16 i)) ∧
    (∀ v : Value, (∀ i, try_into_i32 v = .ok i ↔ v = .I32 i) ∧
      (try_into_i32 v = .error .mk ∨ ∃ i, v = .I32 i)) ∧
    (∀ v : Value, (∀ i, try_into_i64 v = .ok i ↔ v = .I64 i) ∧
      (try_into_i64 v = .error .mk ∨ ∃ i, v = .I64 i)) ∧
    (∀ v : Value, (∀ i, try_into_i128 v = .ok i ↔ v = .I128 i) ∧
      (try_into_i128 v = .error .mk ∨ ∃ i, v = .I128 i)) ∧
    (∀ v : Value, (∀ i, try_into_isize v = .ok i ↔ v = .ISize i) ∧
      (try_into_isize v = .error .mk ∨ ∃ i, v = .ISize i)) ∧
    (∀ v : Value, (∀ u, try_into_u8 v = .ok u ↔ v = .U8 u) ∧
      (try_into_u8 v = .error .mk ∨ ∃ u, v = .U8 u)) ∧
    (∀ v : Value, (∀ u, try_into_u16 v = .ok u ↔ v = .U16 u) ∧
      (try_into_u16 v = .error .mk ∨ ∃ u, v = .U16 u)) ∧
    (∀ v : Value, (∀ u, try_into_u32 v = .ok u ↔ v = .U32 u) ∧
      (try_into_u32 v = .error .mk ∨ ∃ u, v = .U32 u)) ∧
    (∀ v : Value, (∀ u, try_into_u64 v = .ok u ↔ v = .U64 u) ∧
      (try_into_u64 v = .error .mk ∨ ∃ u, v = .U64 u)) ∧
    (∀ v : Value, (∀ u, try_into_u128 v = .ok u ↔ v = .U128 u) ∧
      (try_into_u128 v = .error .mk ∨ ∃ u, v = .U128 u)) ∧
    (∀ v : Value, (∀ u, try_into_usize v = .ok u ↔ v = .USize u) ∧
      (try_into_usize v = .error .mk ∨ ∃ u, v = .USize u)) ∧
    (∀ v : Value, (∀ f, try_into_f32 v = .ok f ↔ v = .F32 f) ∧
      (try_into_f32 v = .error .mk ∨ ∃ f, v = .F32 f)) ∧
    (∀ v : Value, (∀ f, try_into_f64 v = .ok f ↔ v = .F64 f) ∧
      (try_into_f64 v = .error .mk ∨ ∃ f, v = .F64 f)) ∧
    (∀ v : Value, (∀ b, try_into_bool v = .ok b ↔ v = .Bool b) ∧
      (try_into_bool v = .error .mk ∨ ∃ b, v = .Bool b)) ∧
    (∀ v : Value, (∀ ch, try_into_char v = .ok ch ↔ v = .Char ch) ∧
      (try_into_char v = .error .mk ∨ ∃ ch, v = .Char ch)) ∧
    (∀ v : Value, (∀ s, try_into_string v = .ok s ↔ v = .String s) ∧
      (try_into_string v = .error .mk ∨ ∃ s, v = .String s)) := by
  refine ⟨?_, ?_, ?_, ?_, ?_, ?_, ?_, ?_, ?_, ?_, ?_, ?_, ?_, ?_, ?_, ?_, ?_⟩ <;>
    intro v <;>
    refine ⟨fun i => ?_, ?_⟩ <;>
    cases v <;>
    simp [try_into_i8, try_into_i16, try_into_i32, try_into_i64, try_into_i128,
      try_into_isize, try_into_u8, try_into_u16, try_into_u32, try_into_u64,
      try_into_u128, try_into_usize, try_into_f32, try_into_f64, try_into_bool,
      try_into_char, try_into_string]

/-- C10: the derived equality of Value is not reflexive on the float
variants although Value implements Eq: a NaN payload is not equal to
itself, while the manual Ord::cmp on the same pair returns Equal. -/
theorem c10_nan_eq_not_reflexive :
    veq (Value.F32 Flt.nan) (Value.F32 Flt.nan) = false ∧
    cmp (Value.F32 Flt.nan) (Value.F32 Flt.nan) = Ordering.eq ∧
    veq (Value.F64 Flt.nan) (Value.F64 Flt.nan) = false ∧
    cmp (Value.F64 Flt.nan) (Value.F64 Flt.nan) = Ordering.eq := by decide

/-! Tag projections of the aggregate combinators: the tags of each result
batch as a function of the element tags alone.  These bridge the dynamic
and static calling conventions, which differ only in the tuple payload. -/

/-- The result tags of the count combinator as a function of the element
tags. -/
def countTags (h : Heap T) (c : DiffTopKProofsProvenance)
    (ts : List DNFFormula) : List DNFFormula :=
  if ts.isEmpty then [one c]
  else
    (powersetList (List.range ts.length)).map fun chosen_set =>
      top_k_tag_of_chosen_set h c ts chosen_set c.k

/-- The result tags of the min combinator as a function of the element
tags. -/
def minTags (h : Heap T) (c : DiffTopKProofsProvenance)
    (ts : List DNFFormula) : List DNFFormula :=
  (List.range ts.length).map fun i =>
    mult h c ((ts.take i).foldl (fun acc t => mult h c acc (negOf h c t)) (one c))
      (ts.getD i DNFFormula.base_zero)

/-- The result tags of the max combinator as a function of the element
tags. -/
def maxTags (h : Heap T) (c : DiffTopKProofsProvenance)
    (ts : List DNFFormula) : List DNFFormula :=
  (List.range ts.length).map fun i =>
    (ts.drop (i + 1)).foldl (fun acc t => mult h c acc (negOf h c t))
      (ts.getD i DNFFormula.base_zero)

/-- The result tags of the exists combinator as a function of the element
tags. -/
def existsTags (h : Heap T) (c : DiffTopKProofsProvenance)
    (ts : List DNFFormula) : List DNFFormula :=
  [ts.foldl (fun acc t => add h c acc t) (zero c),
   ts.foldl (fun acc t => mult h c acc (negOf h c t)) (one c)]

lemma foldl_pair {α β γ : Type} (f : α → γ → α) (g : β → γ → β) (l : List γ)
    (a : α) (b : β) :
    l.foldl (fun p x => (f p.1 x, g p.2 x)) (a, b) = (l.foldl f a, l.foldl g b) := by
  induction l generalizing a b with
  | nil => rfl
  | cons x xs ih => simp [ih]

lemma dynamic_count_tags (h : Heap T) (c : DiffTopKProofsProvenance)
    (b : List (Tuple × DNFFormula)) :
    (dynamic_count h c b).map Prod.snd = countTags h c (b.map Prod.snd) := by
  rcases b with _ | ⟨e, b⟩
  · simp [dynamic_count, countTags]
  · simp [dynamic_count, countTags, List.map_map, Function.comp]

lemma static_count_tags {Tup : Type} (h : Heap T) (c : DiffTopKProofsProvenance)
    (b : List (Tup × DNFFormula)) :
    (static_count h c b).map Prod.snd = countTags h c (b.map Prod.snd) := by
  rcases b with _ | ⟨e, b⟩
  · simp [static_count, countTags]
  · simp [static_count, countTags, List.map_map, Function.comp]

lemma dynamic_min_tags (h : Heap T) (c : DiffTopKProofsProvenance)
    (b : List (Tuple × DNFFormula)) :
    (dynamic_min h c b).map Prod.snd = minTags h c (b.map Prod.snd) := by
  simp only [dynamic_min, minTags, List.map_map, List.length_map]
  refine List.map_congr_left fun i hi => ?_
  have hilt : i < b.length := List.mem_range.mp hi
  simp only [Function.comp_apply, ← List.map_take, List.foldl_map,
    getD_map_snd b i (Tuple.tuple []) DNFFormula.base_zero hilt]

lemma static_min_tags {Tup : Type} [Inhabited Tup] (h : Heap T)
    (c : DiffTopKProofsProvenance) (b : List (Tup × DNFFormula)) :
    (static_min h c b).map Prod.snd = minTags h c (b.map Prod.snd) := by
  simp only [static_min, minTags, List.map_map, List.length_map]
  refine List.map_congr_left fun i hi => ?_
  have hilt : i < b.length := List.mem_range.mp hi
  simp only [Function.comp_apply, ← List.map_take, List.foldl_map,
    getD_map_snd b i default DNFFormula.base_zero hilt]

lemma dynamic_max_tags (h : Heap T) (c : DiffTopKProofsProvenance)
    (b : List (Tuple × DNFFormula)) :
    (dynamic_max h c b).map Prod.snd = maxTags h c (b.map Prod.snd) := by
  simp only [dynamic_max, maxTags, List.map_map, List.length_map]
  refine List.map_congr_left fun i hi => ?_
  have hilt : i < b.length := List.mem_range.mp hi
  simp only [Function.comp_apply, ← List.map_drop, List.foldl_map,
    getD_map_snd b i (Tuple.tuple []) DNFFormula.base_zero hilt]

lemma static_max_tags {Tup : Type} [Inhabited Tup] (h : Heap T)
    (c : DiffTopKProofsProvenance) (b : List (Tup × DNFFormula)) :
    (static_max h c b).map Prod.snd = maxTags h c (b.map Prod.snd) := by
  simp only [static_max, maxTags, List.map_map, List.length_map]
  refine List.map_congr_left fun i hi => ?_
  have hilt : i < b.length := List.mem_range.mp hi
  simp only [Function.comp_apply, ← List.map_drop, List.foldl_map,
    getD_map_snd b i default DNFFormula.base_zero hilt]

lemma dynamic_exists_tags (h : Heap T) (c : DiffTopKProofsProvenance)
    (b : List (Tuple × DNFFormula)) :
    (dynamic_exists h c b).map Prod.snd = existsTags h c (b.map Prod.snd) := by
  simp only [dynamic_exists, existsTags, List.foldl_map]
  rw [foldl_pair (fun a (e : Tuple × DNFFormula) => add h c a e.2)
    (fun bb e => mult h c bb (negOf h c e.2))]
  simp

lemma static_exists_tags {Tup : Type} (h : Heap T) (c : DiffTopKProofsProvenance)
    (b : List (Tup × DNFFormula)) :
    (static_exists h c b).map Prod.snd = existsTags h c (b.map Prod.snd) := by
  simp only [static_exists, existsTags, List.foldl_map]
  rw [foldl_pair (fun a (e : Tup × DNFFormula) => add h c a e.2)
    (fun bb e => mult h c bb (negOf h c e.2))]
  simp

/-! Claims C1 to C6, about the top-k differentiable provenance. -/

/-- C3: on any batch, dynamic_exists and static_exists each return exactly
two result elements: a true element tagged with the iterated add, starting
from zero, of all element tags, and a false element tagged with the
iterated mult, starting from one, of the negations of all element tags. -/
theorem c3_exists_aggregate {T1 Tup : Type} (h : Heap T1)
    (c : DiffTopKProofsProvenance) (b1 : List (Tuple × DNFFormula))
    (b2 : List (Tup × DNFFormula)) :
    dynamic_exists h c b1 =
      [(Tuple.value (Value.Bool true),
        b1.foldl (fun acc e => add h c acc e.2) (zero c)),
       (Tuple.value (Value.Bool false),
        b1.foldl (fun acc e => mult h c acc (negOf h c e.2)) (one c))] ∧
    static_exists h c b2 =
      [(true, b2.foldl (fun acc e => add h c acc e.2) (zero c)),
       (false, b2.foldl (fun acc e => mult h c acc (negOf h c e.2)) (one c))] := by
  constructor
  · simp only [dynamic_exists]
    rw [foldl_pair (fun a (e : Tuple × DNFFormula) => add h c a e.2)
      (fun bb e => mult h c bb (negOf h c e.2))]
  · simp only [static_exists]
    rw [foldl_pair (fun a (e : Tup × DNFFormula) => add h c a e.2)
      (fun bb e => mult h c bb (negOf h c e.2))]

/-- C6: given the same context and batches carrying the same tags in the
same order, the runtime-typed and compile-time-typed variants of count,
min, max and exists produce result batches with identical tags in
identical order. -/
theorem c6_dynamic_static_agree {T1 Tup : Type} [Inhabited Tup] (h : Heap T1)
    (c : DiffTopKProofsProvenance) (b1 : List (Tuple × DNFFormula))
    (b2 : List (Tup × DNFFormula)) (hts : b1.map Prod.snd = b2.map Prod.snd) :
    (dynamic_count h c b1).map Prod.snd = (static_count h c b2).map Prod.snd ∧
    (dynamic_min h c b1).map Prod.snd = (static_min h c b2).map Prod.snd ∧
    (dynamic_max h c b1).map Prod.snd = (static_max h c b2).map Prod.snd ∧
    (dynamic_exists h c b1).map Prod.snd = (static_exists h c b2).map Prod.snd := by
  refine ⟨?_, ?_, ?_, ?_⟩
  · rw [dynamic_count_tags, static_count_tags, hts]
  · rw [dynamic_min_tags, static_min_tags, hts]
  · rw [dynamic_max_tags, static_max_tags, hts]
  · rw [dynamic_exists_tags, static_exists_tags, hts]

/-- C6, witness: the agreement theorem on concrete one-element batches
carrying the same tag under different payloads. -/
theorem c6_dynamic_static_agree_witness :
    ([(Tuple.value (Value.Bool true), [[Literal.pos 0]])] :
        List (Tuple × DNFFormula)).map Prod.snd =
      ([(3, [[Literal.pos 0]])] : List (ℕ × DNFFormula)).map Prod.snd ∧
    ((dynamic_count (Heap.empty String) ⟨1, 0, []⟩
        [(Tuple.value (Value.Bool true), [[Literal.pos 0]])]).map Prod.snd =
      (static_count (Heap.empty String) ⟨1, 0, []⟩
        [(3, [[Literal.pos 0]])]).map Prod.snd ∧
     (dynamic_min (Heap.empty String) ⟨1, 0, []⟩
        [(Tuple.value (Value.Bool true), [[Literal.pos 0]])]).map Prod.snd =
      (static_min (Heap.empty String) ⟨1, 0, []⟩
        [(3, [[Literal.pos 0]])]).map Prod.snd ∧
     (dynamic_max (Heap.empty String) ⟨1, 0, []⟩
        [(Tuple.value (Value.Bool true), [[Literal.pos 0]])]).map Prod.snd =
      (static_max (Heap.empty String) ⟨1, 0, []⟩
        [(3, [[Literal.pos 0]])]).map Prod.snd ∧
     (dynamic_exists (Heap.empty String) ⟨1, 0, []⟩
        [(Tuple.value (Value.Bool true), [[Literal.pos 0]])]).map Prod.snd =
      (static_exists (Heap.empty String) ⟨1, 0, []⟩
        [(3, [[Literal.pos 0]])]).map Prod.snd) :=
  ⟨by decide,
   c6_dynamic_static_agree (Heap.empty String) ⟨1, 0, []⟩
     [(Tuple.value (Value.Bool true), [[Literal.pos 0]])]
     [(3, [[Literal.pos 0]])] (by decide)⟩

/-- C1: on any context, tagging a fact with probability 7/10, label a and
no exclusivity returns the singleton tag of the freshly minted identifier
(the current fact-table length), and recovering that tag on the updated
context yields probability 7/10 and a derivative list with exactly one
entry, carrying that identifier, partial derivative 1 and label a. -/
theorem c1_tagging_recover_round_trip (h : Heap String) (c : DiffTopKProofsProvenance) :
    (tagging_fn h c ⟨7/10, "a", none⟩).2.2 =
      DNFFormula.singleton (h.read c.diff_probs).length ∧
    recover_fn (tagging_fn h c ⟨7/10, "a", none⟩).1
        (tagging_fn h c ⟨7/10, "a", none⟩).2.1
        (tagging_fn h c ⟨7/10, "a", none⟩).2.2 =
      ⟨7/10, [((h.read c.diff_probs).length, 1, "a")]⟩ := by
  have htag := tagging_tag h c ⟨7/10, "a", none⟩
  refine ⟨htag, ?_⟩
  rw [htag]
  have hc1 : (tagging_fn h c ⟨7/10, "a", none⟩).2.1 = c := by
    simp [tagging_fn]
  rw [hc1]
  refine recover_singleton _ _ _ _ _ ?_ ?_
  · rw [tagging_table h c _]
    exact getD_map_append _ _ _ _
  · rw [tagging_table h c _]
    exact getD_map_append _ _ _ _

/-- C2: for any bound k at least 1, the tag returned by a single add and
the tag returned by a single mult each hold at most k clauses; in
particular for k equal to 1 the result collapses to at most one clause. -/
theorem c2_top_k_bound {T : Type} (h : Heap T) (c : DiffTopKProofsProvenance)
    (t1 t2 : DNFFormula) (_hk : 1 ≤ c.k) :
    (add h c t1 t2).length ≤ c.k ∧ (mult h c t1 t2).length ≤ c.k := by
  constructor
  · simp only [add, top_k_add, retain_top_k]
    exact List.length_take_le _ _
  · simp only [mult, top_k_mult, retain_top_k]
    exact List.length_take_le _ _

/-- C2, witness: the bound theorem at k equal to 1 on two singleton
formulas. -/
theorem c2_top_k_bound_witness :
    1 ≤ (⟨1, 0, []⟩ : DiffTopKProofsProvenance).k ∧
    ((add (Heap.empty String) ⟨1, 0, []⟩ [[Literal.pos 0]] [[Literal.pos 1]]).length ≤
        (⟨1, 0, []⟩ : DiffTopKProofsProvenance).k ∧
     (mult (Heap.empty String) ⟨1, 0, []⟩ [[Literal.pos 0]] [[Literal.pos 1]]).length ≤
        (⟨1, 0, []⟩ : DiffTopKProofsProvenance).k) :=
  ⟨by decide, c2_top_k_bound (Heap.empty String) ⟨1, 0, []⟩ _ _ (by decide)⟩

/-- C4: starting from a fresh context, feeding any list of input tags to
tagging_fn returns the singleton tags of 0, 1, 2 and so on in call order,
and leaves the fact table holding exactly the (probability, label) pairs of
the inputs at those indices; identifiers are dense, zero based, assigned in
call order, never reused, and a fresh identifier is minted on every call
even for inputs equal to earlier ones. -/
theorem c4_fact_id_assignment (k : ℕ) (inputs : List (InputExclusiveDiffProb String)) :
    (tagMany (DiffTopKProofsProvenance.new (Heap.empty String) k).1
        (DiffTopKProofsProvenance.new (Heap.empty String) k).2 inputs).2.2 =
      (List.range inputs.length).map DNFFormula.singleton ∧
    (tagMany (DiffTopKProofsProvenance.new (Heap.empty String) k).1
        (DiffTopKProofsProvenance.new (Heap.empty String) k).2 inputs).1.read
        (tagMany (DiffTopKProofsProvenance.new (Heap.empty String) k).1
          (DiffTopKProofsProvenance.new (Heap.empty String) k).2 inputs).2.1.diff_probs =
      inputs.map (fun inp => (inp.prob, inp.tag)) := by
  obtain ⟨ht, hr, hp⟩ := tagMany_spec inputs
    (DiffTopKProofsProvenance.new (Heap.empty String) k).1
    (DiffTopKProofsProvenance.new (Heap.empty String) k).2
  have hinit : (DiffTopKProofsProvenance.new (Heap.empty String) k).1.read
      (DiffTopKProofsProvenance.new (Heap.empty String) k).2.diff_probs = [] :=
    Heap.read_alloc_self _ _
  rw [hinit] at ht hr
  refine ⟨?_, ?_⟩
  · rw [ht]
    simp
  · rw [hp, hr]
    simp

/-- C5: cloning a context allocates a fresh cell holding a copy of the fact
table, so the clone points elsewhere while initially reading equal content,
the original cell is untouched by the cloning, tagging through the clone
leaves the cell of the original unchanged, and tagging through the original
leaves the cell of the clone unchanged; the k and the disjunction registry
are plain owned values copied into the clone, so their isolation is
structural in the embedding. -/
theorem c5_clone_isolation {T : Type} (h : Heap T) (c : DiffTopKProofsProvenance)
    (inp1 inp2 : InputExclusiveDiffProb T) (hv : c.diff_probs < h.next) :
    (clone h c).2.diff_probs ≠ c.diff_probs ∧
    (clone h c).2.disjunctions = c.disjunctions ∧
    (clone h c).1.read (clone h c).2.diff_probs = h.read c.diff_probs ∧
    (clone h c).1.read c.diff_probs = h.read c.diff_probs ∧
    (tagging_fn (clone h c).1 (clone h c).2 inp1).1.read c.diff_probs =
      (clone h c).1.read c.diff_probs ∧
    (tagging_fn (clone h c).1 c inp2).1.read (clone h c).2.diff_probs =
      (clone h c).1.read (clone h c).2.diff_probs := by
  have hptr : (clone h c).2.diff_probs = h.next := rfl
  have hcne : c.diff_probs ≠ h.next := Nat.ne_of_lt hv
  refine ⟨?_, rfl, ?_, ?_, ?_, ?_⟩
  · rw [hptr]
    exact hcne.symm
  · exact Heap.read_alloc_self h _
  · exact Heap.read_alloc_ne h _ _ hcne
  · exact tagging_read_ne _ _ _ _ (by rw [hptr]; exact hcne)
  · exact tagging_read_ne _ _ _ _ (by rw [hptr]; exact hcne.symm)

/-- C5, witness: the isolation theorem on a freshly constructed context
over the empty store, with one tagging carrying an exclusivity group and
one without. -/
theorem c5_clone_isolation_witness :
    (DiffTopKProofsProvenance.new (Heap.empty String) 2).2.diff_probs <
      (DiffTopKProofsProvenance.new (Heap.empty String) 2).1.next ∧
    ((clone (DiffTopKProofsProvenance.new (Heap.empty String) 2).1
        (DiffTopKProofsProvenance.new (Heap.empty String) 2).2).2.diff_probs ≠
      (DiffTopKProofsProvenance.new (Heap.empty String) 2).2.diff_probs ∧
     (clone (DiffTopKProofsProvenance.new (Heap.empty String) 2).1
        (DiffTopKProofsProvenance.new (Heap.empty String) 2).2).2.disjunctions =
      (DiffTopKProofsProvenance.new (Heap.empty String) 2).2.disjunctions ∧
     (clone (DiffTopKProofsProvenance.new (Heap.empty String) 2).1
        (DiffTopKProofsProvenance.new (Heap.empty String) 2).2).1.read
        (clone (DiffTopKProofsProvenance.new (Heap.empty String) 2).1
          (DiffTopKProofsProvenance.new (Heap.empty String) 2).2).2.diff_probs =
      (DiffTopKProofsProvenance.new (Heap.empty String) 2).1.read
        (DiffTopKProofsProvenance.new (Heap.empty String) 2).2.diff_probs ∧
     (clone (DiffTopKProofsProvenance.new (Heap.empty String) 2).1
        (DiffTopKProofsProvenance.new (Heap.empty String) 2).2).1.read
        (DiffTopKProofsProvenance.new (Heap.empty String) 2).2.diff_probs =
      (DiffTopKProofsProvenance.new (Heap.empty String) 2).1.read
        (DiffTopKProofsProvenance.new (Heap.empty String) 2).2.diff_probs ∧
     (tagging_fn (clone (DiffTopKProofsProvenance.new (Heap.empty String) 2).1
          (DiffTopKProofsProvenance.new (Heap.empty String) 2).2).1
        (clone (DiffTopKProofsProvenance.new (Heap.empty String) 2).1
          (DiffTopKProofsProvenance.new (Heap.empty String) 2).2).2
        ⟨1/2, "x", some 0⟩).1.read
        (DiffTopKProofsProvenance.new (Heap.empty String) 2).2.diff_probs =
      (clone (DiffTopKProofsProvenance.new (Heap.empty String) 2).1
        (DiffTopKProofsProvenance.new (Heap.empty String) 2).2).1.read
        (DiffTopKProofsProvenance.new (Heap.empty String) 2).2.diff_probs ∧
     (tagging_fn (clone (DiffTopKProofsProvenance.new (Heap.empty String) 2).1
          (DiffTopKProofsProvenance.new (Heap.empty String) 2).2).1
        (DiffTopKProofsProvenance.new (Heap.empty String) 2).2
        ⟨1/3, "y", none⟩).1.read
        (clone (DiffTopKProofsProvenance.new (Heap.empty String) 2).1
          (DiffTopKProofsProvenance.new (Heap.empty String) 2).2).2.diff_probs =
      (clone (DiffTopKProofsProvenance.new (Heap.empty String) 2).1
        (DiffTopKProofsProvenance.new (Heap.empty String) 2).2).1.read
        (clone (DiffTopKProofsProvenance.new (Heap.empty String) 2).1
          (DiffTopKProofsProvenance.new (Heap.empty String) 2).2).2.diff_probs) :=
  ⟨by decide,
   c5_clone_isolation (DiffTopKProofsProvenance.new (Heap.empty String) 2).1
     (DiffTopKProofsProvenance.new (Heap.empty String) 2).2
     ⟨1/2, "x", some 0⟩ ⟨1/3, "y", none⟩ (by decide)⟩

end Scallop
